import Mathlib

/-!
Shallow embedding of the room/session state machine of the `price-surprise`
game variant (`src/apps/price-surprise/lib/rooms.ts`) together with the
request-handling layer of `src/unnamed/part_011`.

Modelling conventions:
- JavaScript numbers that appear as prices, guesses and score values are
  modelled as integers (`ℤ`); the claims exercise no float-specific
  behaviour.
- The `diff` values computed by `closeRound` can be `Number.POSITIVE_INFINITY`
  (player did not guess), so they live in `JNum`, a copy of the JS number line
  with both infinities.  `Math.min(...xs)` / `Math.max(...xs)` are folds with
  identity `+inf` / `-inf`, exactly as in JS.  `Array.prototype.sort` with
  comparator `(a, b) => a.diff - b.diff` is a stable sort for the total
  preorder `a.diff ≤ b.diff` (two infinities compare via `NaN`, which `sort`
  treats as equal, and `leB posInf posInf = true` accordingly); it is modelled
  by a stable insertion sort.
- JS `Map`s (insertion ordered) are association lists; `Map.set` overwrites in
  place when the key exists and appends otherwise.
- Mutation is modelled by explicit state passing; every operation returns the
  new room together with the list of events it broadcasts.  `closeRound` can
  throw a `TypeError` after partially mutating the room (when the selected
  category's name has no match in `room.categories`); the result type
  `CloseResult` records the partially mutated room in that case.
- `randomUUID`-generated identifiers and `Math.random` choices are passed in
  as explicit parameters, making the nondeterminism universally quantified.
-/

namespace Spielenium

/-- The JS number line as used for round diffs: finite values plus the two
infinities (`Number.POSITIVE_INFINITY` for missing guesses). -/
inductive JNum where
  | negInf : JNum
  | fin : ℤ → JNum
  | posInf : JNum
deriving DecidableEq, Repr

/-- The preorder induced by the JS sort comparator `(a, b) => a.diff - b.diff`:
`leB a b` holds iff the comparator does not place `a` strictly after `b`.
Two infinities yield `NaN`, which `Array.prototype.sort` treats as "equal",
hence `leB posInf posInf = true`. -/
def JNum.leB : JNum → JNum → Bool
  | .negInf, _ => true
  | .fin _, .negInf => false
  | .fin a, .fin b => a ≤ b
  | .fin _, .posInf => true
  | .posInf, .posInf => true
  | .posInf, _ => false

/-- Binary `Math.min` on non-NaN numbers. -/
def jmin (a b : JNum) : JNum := if a.leB b then a else b

/-- Binary `Math.max` on non-NaN numbers. -/
def jmax (a b : JNum) : JNum := if a.leB b then b else a

/-- Spread form `Math.min(...xs)`: fold of binary min with identity `+inf`. -/
def jsMin (l : List JNum) : JNum := l.foldl jmin .posInf

/-- Spread form `Math.max(...xs)`: fold of binary max with identity `-inf`. -/
def jsMax (l : List JNum) : JNum := l.foldl jmax .negInf

/-- Lifecycle states of a room (`GameState` in `rooms.ts`). -/
inductive GameState where
  | lobby : GameState
  | categorySelection : GameState
  | guessing : GameState
  | results : GameState
  | gameOver : GameState
deriving DecidableEq, Repr

/-- An item of a category (`Item` in `rooms.ts`). -/
structure Item where
  name : String
  price : ℤ
  image : Option String := none
  imageAnswer : Option String := none
deriving DecidableEq, Repr

/-- A category of items (`Category` in `rooms.ts`). -/
structure Category where
  name : String
  «type» : String
  logo : String
  items : List Item
deriving DecidableEq, Repr

/-- A participant (`Player` in `rooms.ts`). -/
structure Player where
  id : String
  name : String
  score : ℤ
  voted : Bool
  lastGuess : Option ℤ := none
deriving DecidableEq, Repr

/-- Public projection of a player (`PlayerPublic`). -/
structure PlayerPublic where
  id : String
  name : String
  score : ℤ
  voted : Bool
deriving DecidableEq, Repr

/-- One game session (`Room` in `rooms.ts`).  The `subscribers` set is not
part of the state model; broadcasts are returned as event lists instead. -/
structure Room where
  id : String
  createdAt : ℕ
  state : GameState
  categories : List Category
  selectedCategory : Option Category
  currentItem : Option Item
  players : List Player
  currentCategoryPickerIndex : Option ℕ
  playerIdToGuess : List (String × ℤ)
deriving DecidableEq, Repr

/-- Public projection of a room (`RoomPublic`). -/
structure RoomPublic where
  id : String
  state : GameState
  categories : List Category
  selectedCategory : Option Category
  currentItem : Option Item
  players : List PlayerPublic
  currentPickerIndex : Option ℕ
deriving DecidableEq, Repr

/-- One row of the `diffs` array computed by `closeRound`. -/
structure DiffEntry where
  playerId : String
  name : String
  diff : JNum
  guess : Option ℤ := none
deriving DecidableEq, Repr

/-- Events delivered to subscribers (`ServerEvent` in `rooms.ts`). -/
inductive ServerEvent where
  | state : RoomPublic → ServerEvent
  | players : List PlayerPublic → ServerEvent
  | guess : String → String → ℤ → ServerEvent
  | question : Category → Item → ServerEvent
  | result : Item → List String → List String → List DiffEntry → ServerEvent
deriving DecidableEq, Repr

/-- Model of `Map.get` on an insertion-ordered association list. -/
def mapGet (m : List (String × ℤ)) (k : String) : Option ℤ :=
  (m.find? (fun e => e.1 == k)).map (·.2)

/-- Model of `Map.set` on an insertion-ordered association list: overwrite in place if
the key exists, append otherwise. -/
def mapSet (m : List (String × ℤ)) (k : String) (v : ℤ) : List (String × ℤ) :=
  if m.any (fun e => e.1 == k) then
    m.map (fun e => if e.1 == k then (k, v) else e)
  else
    m ++ [(k, v)]

/-- Lookup `room.players.get(id)` on the insertion-ordered player map. -/
def findPlayer (ps : List Player) (pid : String) : Option Player :=
  ps.find? (fun p => p.id == pid)

/-- Update `room.players.set(p.id, p)`. -/
def playersSet (ps : List Player) (p : Player) : List Player :=
  if ps.any (fun q => q.id == p.id) then
    ps.map (fun q => if q.id == p.id then p else q)
  else
    ps ++ [p]

/-- Function `roomToPublic` from `rooms.ts`. -/
def roomToPublic (r : Room) : RoomPublic :=
  { id := r.id
    state := r.state
    categories := r.categories
    selectedCategory := r.selectedCategory
    currentItem := r.currentItem
    players := r.players.map (fun p => ⟨p.id, p.name, p.score, p.voted⟩)
    currentPickerIndex := r.currentCategoryPickerIndex }

/-- Function `createRoom` from `rooms.ts`.  The random id and the creation timestamp
are passed in explicitly. -/
def createRoom (id : String) (createdAt : ℕ) (categories : List Category) : Room :=
  { id := id
    createdAt := createdAt
    state := .lobby
    categories := categories
    selectedCategory := none
    currentItem := none
    players := []
    currentCategoryPickerIndex := some 0
    playerIdToGuess := [] }

/-- Model of `String.prototype.trim`: drop whitespace from both ends (implemented
over the character list so that it evaluates by kernel reduction). -/
def jsTrim (s : String) : String :=
  String.mk (((s.data.dropWhile Char.isWhitespace).reverse.dropWhile
    Char.isWhitespace).reverse)

/-- Function `joinRoom` from `rooms.ts`.  The random player id is passed in
explicitly; a blank trimmed name is defaulted to `Player-<prefix>`. -/
def joinRoom (r : Room) (pid rawName : String) : Room × List ServerEvent :=
  let nm := if jsTrim rawName = "" then "Player-" ++ pid.take 4 else jsTrim rawName
  let p : Player := { id := pid, name := nm, score := 0, voted := false }
  let r' := { r with players := playersSet r.players p }
  (r', [.state (roomToPublic r')])

/-- Function `startGame` from `rooms.ts` (the registry lookup is dropped; the room is
passed directly).  Throws "Game already started" outside the lobby and
"No players joined" when the player map is empty. -/
def startGame (r : Room) : Except String (Room × List ServerEvent) :=
  if r.state ≠ .lobby then .error "Game already started"
  else if r.players.isEmpty then .error "No players joined"
  else
    let r' := { r with
      state := .categorySelection
      currentCategoryPickerIndex := some 0
      selectedCategory := none
      currentItem := none }
    .ok (r', [.state (roomToPublic r')])

/-- Function `pickItem` from `rooms.ts`.  The category (and optional item override)
come from the caller unchecked; `randIdx` stands for the `Math.random` draw,
reduced modulo the item count.  Returns `none` exactly when no override is
given and the category has no items; the room is unchanged in that case. -/
def pickItem (r : Room) (category : Category) (itemOverride : Option Item)
    (randIdx : ℕ) : Option (Room × List ServerEvent) :=
  let chosen : Option Item :=
    match itemOverride with
    | some it => some it
    | none =>
      if category.items.isEmpty then none
      else category.items[randIdx % category.items.length]?
  match chosen with
  | none => none
  | some item =>
    let r' := { r with
      selectedCategory := some category
      currentItem := some item
      state := .guessing
      playerIdToGuess := [] }
    some (r', [.question category item, .state (roomToPublic r')])

/-- Function `submitGuess` from `rooms.ts`: silent no-op when the player is unknown,
there is no current item, or the state is not `guessing`; otherwise records
the guess (last write wins), sets `lastGuess` and `voted`, and broadcasts. -/
def submitGuess (r : Room) (pid : String) (g : ℤ) : Room × List ServerEvent :=
  match findPlayer r.players pid with
  | none => (r, [])
  | some player =>
    if r.currentItem = none ∨ r.state ≠ .guessing then (r, [])
    else
      let r' := { r with
        playerIdToGuess := mapSet r.playerIdToGuess pid g
        players := r.players.map (fun q =>
          if q.id == pid then { q with lastGuess := some g, voted := true } else q) }
      (r', [.guess pid player.name g, .state (roomToPublic r')])

/-- Model of `Math.abs`. -/
def jabs (q : ℤ) : ℤ := if q < 0 then -q else q

/-- The `diffs` array built by `closeRound` (lines 224-236): a finite
`Math.abs (guess - price)` for players with a recorded guess, `+inf`
otherwise, in player-map insertion order. -/
def roundDiffs (ps : List Player) (gs : List (String × ℤ)) (price : ℤ) :
    List DiffEntry :=
  ps.map (fun p =>
    match mapGet gs p.id with
    | some g => { playerId := p.id, name := p.name, diff := .fin (jabs (g - price)), guess := some g }
    | none => { playerId := p.id, name := p.name, diff := .posInf })

/-- Stable insertion of a diff entry with respect to the sort comparator. -/
def insertDiff (x : DiffEntry) : List DiffEntry → List DiffEntry
  | [] => [x]
  | y :: ys => if x.diff.leB y.diff then x :: y :: ys else y :: insertDiff x ys

/-- The call `diffs.sort((a, b) => a.diff - b.diff)`: a stable sort for the preorder
`leB` on the diff field, modelled as stable insertion sort. -/
def sortDiffs : List DiffEntry → List DiffEntry
  | [] => []
  | x :: xs => insertDiff x (sortDiffs xs)

/-- The sorted `diffs` array of a round. -/
def sortedRoundDiffs (ps : List Player) (gs : List (String × ℤ)) (price : ℤ) :
    List DiffEntry :=
  sortDiffs (roundDiffs ps gs price)

/-- Value `minDiff` of a round (`Math.min(...diffs.map(p => p.diff))`). -/
def roundMinDiff (ps : List Player) (gs : List (String × ℤ)) (price : ℤ) : JNum :=
  jsMin ((sortedRoundDiffs ps gs price).map (·.diff))

/-- Value `maxDiff` of a round (`Math.max(...diffs.map(p => p.diff))`). -/
def roundMaxDiff (ps : List Player) (gs : List (String × ℤ)) (price : ℤ) : JNum :=
  jsMax ((sortedRoundDiffs ps gs price).map (·.diff))

/-- The `winners` id list: every entry whose diff equals `minDiff`. -/
def roundWinners (ps : List Player) (gs : List (String × ℤ)) (price : ℤ) :
    List String :=
  ((sortedRoundDiffs ps gs price).filter
    (fun d => d.diff == roundMinDiff ps gs price)).map (·.playerId)

/-- The `losers` id list: empty when `minDiff == maxDiff`, otherwise every
entry whose diff equals `maxDiff`. -/
def roundLosers (ps : List Player) (gs : List (String × ℤ)) (price : ℤ) :
    List String :=
  if roundMinDiff ps gs price = roundMaxDiff ps gs price then []
  else
    ((sortedRoundDiffs ps gs price).filter
      (fun d => d.diff == roundMaxDiff ps gs price)).map (·.playerId)

/-- The loop `ids.forEach(id => ...)` with body `room.players.get(id)` and a score bump:
each occurrence of an id adds `delta` to the matching player's score. -/
def applyScore (delta : ℤ) (ps : List Player) (ids : List String) : List Player :=
  ids.foldl
    (fun acc pid =>
      acc.map (fun q => if q.id == pid then { q with score := q.score + delta } else q))
    ps

/-- Replace the first category satisfying `p` (in-place mutation of the
object returned by `Array.prototype.find`). -/
def replaceFirst (p : Category → Bool) (f : Category → Category) :
    List Category → List Category
  | [] => []
  | c :: cs => if p c then f c :: cs else c :: replaceFirst p f cs

/-- Remove the first category satisfying `p`
(`categories.filter(c => c !== category)` for the object found by name). -/
def removeFirst (p : Category → Bool) : List Category → List Category
  | [] => []
  | c :: cs => if p c then cs else c :: removeFirst p cs

/-- Result of `closeRound`: either a normal return with the new room and the
broadcast events, or a thrown `TypeError` (`categories.find(...)` returned
`undefined` and `.items` was read on it) with the partially mutated room —
scores applied and `voted` flags reset, but guesses not cleared and the state
not advanced. -/
inductive CloseResult where
  | ok : Room → List ServerEvent → CloseResult
  | thrown : Room → CloseResult
deriving DecidableEq, Repr

/-- The room after a `closeRound` call, thrown or not. -/
def CloseResult.room : CloseResult → Room
  | .ok r _ => r
  | .thrown r => r

/-- Whether the `closeRound` call threw. -/
def CloseResult.isThrown : CloseResult → Bool
  | .ok _ _ => false
  | .thrown _ => true

/-- Function `closeRound` from `rooms.ts` (lines 213-293): early return when
`currentItem` or `selectedCategory` is null; otherwise score the round,
reset `voted`, remove the used item by name from the category found by name
(pruning it when emptied), clear the guesses and move to `results`. -/
def closeRound (r : Room) : CloseResult :=
  match r.currentItem, r.selectedCategory with
  | some item, some sc =>
    let diffs := sortedRoundDiffs r.players r.playerIdToGuess item.price
    let winners := roundWinners r.players r.playerIdToGuess item.price
    let losers := roundLosers r.players r.playerIdToGuess item.price
    let ps1 := applyScore 1 r.players winners
    let ps2 := applyScore (-1) ps1 losers
    let ps3 := ps2.map (fun p => { p with voted := false })
    match r.categories.find? (fun c => c.name == sc.name) with
    | none => .thrown { r with players := ps3 }
    | some cat =>
      let newItems := cat.items.filter (fun i => !(i.name == item.name))
      let cats' :=
        if newItems.isEmpty then
          removeFirst (fun c => c.name == sc.name) r.categories
        else
          replaceFirst (fun c => c.name == sc.name)
            (fun c => { c with items := newItems }) r.categories
      let r' := { r with
        players := ps3
        categories := cats'
        playerIdToGuess := []
        state := .results }
      .ok r' [.result item winners losers diffs, .state (roomToPublic r')]
  | _, _ => .ok r []

/-- Function `endGame` from `rooms.ts`. -/
def endGame (r : Room) : Room × List ServerEvent :=
  let r' := { r with
    state := .gameOver
    selectedCategory := none
    currentItem := none
    playerIdToGuess := [] }
  (r', [.state (roomToPublic r')])

/-- Function `nextStep` from `rooms.ts`: game over when no categories remain,
otherwise back to category selection. -/
def nextStep (r : Room) : Room × List ServerEvent :=
  if r.categories.isEmpty then endGame r
  else
    let r' := { r with
      state := .categorySelection
      selectedCategory := none
      currentItem := none
      playerIdToGuess := [] }
    (r', [.state (roomToPublic r')])

/-- The player list after `closeRound`'s score updates and `voted` reset:
winners gain a point, losers lose one, every `voted` flag is cleared. -/
def closedPlayers (ps : List Player) (gs : List (String × ℤ)) (price : ℤ) :
    List Player :=
  ((applyScore (-1) (applyScore 1 ps (roundWinners ps gs price))
      (roundLosers ps gs price)).map (fun p => { p with voted := false }))

/-- The category list after `closeRound` removes the used item by name from
the category `cat` found by name, pruning the category when emptied. -/
def closedCategories (cats : List Category) (sc : Category) (it : Item)
    (cat : Category) : List Category :=
  if (cat.items.filter (fun i => !(i.name == it.name))).isEmpty then
    removeFirst (fun c => c.name == sc.name) cats
  else
    replaceFirst (fun c => c.name == sc.name)
      (fun c => { c with items := cat.items.filter (fun i => !(i.name == it.name)) }) cats

/-- The room produced by a normal `closeRound` return. -/
def closedRoomOf (r : Room) (it : Item) (sc cat : Category) : Room :=
  { r with
    players := closedPlayers r.players r.playerIdToGuess it.price
    categories := closedCategories r.categories sc it cat
    playerIdToGuess := []
    state := .results }

/-- Result of one request to the `next` route of `src/unnamed/part_011`:
a JSON success, a 4xx JSON error (the room untouched by the failing branch),
or an uncaught exception. -/
inductive HandlerResult where
  | ok : Room → List ServerEvent → HandlerResult
  | clientError : Room → String → HandlerResult
  | serverThrow : Room → HandlerResult
deriving DecidableEq, Repr

/-- The room after a handled request. -/
def HandlerResult.room : HandlerResult → Room
  | .ok r _ => r
  | .clientError r _ => r
  | .serverThrow r => r

/-- Whether the request succeeded. -/
def HandlerResult.isOk : HandlerResult → Bool
  | .ok _ _ => true
  | _ => false

/-- The `pick` branch of the POST handler in `src/unnamed/part_011`
(lines 19-48): phase check, turn check against the player at
`currentCategoryPickerIndex ?? 0`, then `pickItem`, and only after a
successful pick the round-robin advance
`currentCategoryPickerIndex = (pickerIndex + 1) % players.size`.
Reading `.id` off an out-of-range picker (`[...players][idx]!`) throws. -/
def handlePick (r : Room) (playerId : String) (category : Category)
    (item : Option Item) (randIdx : ℕ) : HandlerResult :=
  if r.state ≠ .categorySelection then
    .clientError r "Not the category-selection phase"
  else
    match r.players[r.currentCategoryPickerIndex.getD 0]? with
    | none => .serverThrow r
    | some picker =>
      if playerId ≠ picker.id then
        .clientError r "Not your turn to pick a category"
      else
        match pickItem r category item randIdx with
        | none => .clientError r "No items left in category or item already used"
        | some (r1, evs) =>
          .ok { r1 with
            currentCategoryPickerIndex :=
              some ((r.currentCategoryPickerIndex.getD 0 + 1) % r1.players.length) } evs

/-- The `close` branch of the POST handler in `src/unnamed/part_011`:
rejected outside the guessing phase, otherwise `closeRound`. -/
def handleClose (r : Room) : HandlerResult :=
  if r.state ≠ .guessing then .clientError r "Not the guessing phase"
  else
    match closeRound r with
    | .ok r' evs => .ok r' evs
    | .thrown r' => .serverThrow r'

/-- The default branch of the POST handler: `nextStep`. -/
def handleNext (r : Room) : HandlerResult :=
  .ok (nextStep r).1 (nextStep r).2

/-- Rooms reachable from `createRoom` by any sequence of the core operations,
with all nondeterminism (ids, names, caller-supplied categories and items,
random indices) universally quantified.  `closeRound` contributes the room it
leaves behind whether it returns normally or throws. -/
inductive Reach : Room → Prop where
  | create (id : String) (ts : ℕ) (cats : List Category) :
      Reach (createRoom id ts cats)
  | join {r : Room} (h : Reach r) (pid nm : String) :
      Reach (joinRoom r pid nm).1
  | start {r r' : Room} {evs : List ServerEvent} (h : Reach r)
      (hs : startGame r = .ok (r', evs)) : Reach r'
  | pick {r r' : Room} {evs : List ServerEvent} (h : Reach r)
      (c : Category) (io : Option Item) (k : ℕ)
      (hp : pickItem r c io k = some (r', evs)) : Reach r'
  | guess {r : Room} (h : Reach r) (pid : String) (g : ℤ) :
      Reach (submitGuess r pid g).1
  | close {r : Room} (h : Reach r) : Reach (closeRound r).room
  | next {r : Room} (h : Reach r) : Reach (nextStep r).1
  | finish {r : Room} (h : Reach r) : Reach (endGame r).1

/-- The invariant of spec section 3: a current item exists exactly in the
`guessing` and `results` states, and the guess map is empty outside
`guessing`. -/
def ClaimInv (r : Room) : Prop :=
  (r.currentItem ≠ none ↔ (r.state = .guessing ∨ r.state = .results))
  ∧ (r.state ≠ .guessing → r.playerIdToGuess = [])

/-- Strengthened invariant used in the induction: additionally,
`currentItem` and `selectedCategory` are null together. -/
def FullInv (r : Room) : Prop :=
  ClaimInv r ∧ (r.currentItem = none ↔ r.selectedCategory = none)

/-- Concrete scenario of the scoring example: target price 90, players A, B,
C in join order, guesses A = 100 and B = 80, no guess from C. -/
def itemC1 : Item := { name := "toaster", price := 90 }

/-- The category holding the scoring example's item. -/
def categoryC1 : Category :=
  { name := "kitchen", «type» := "small", logo := "k.png", items := [itemC1] }

/-- The guessing-state room of the scoring example. -/
def roomC1 : Room :=
  { id := "R1", createdAt := 0, state := .guessing, categories := [categoryC1],
    selectedCategory := some categoryC1, currentItem := some itemC1,
    players := [ { id := "A", name := "Alice", score := 3, voted := true },
                 { id := "B", name := "Bob", score := 0, voted := true },
                 { id := "C", name := "Cara", score := 5, voted := false } ],
    currentCategoryPickerIndex := some 0,
    playerIdToGuess := [("A", 100), ("B", 80)] }

/-- First item of the re-close scenario's category. -/
def itemD1 : Item := { name := "pan", price := 30 }

/-- Second item of the re-close scenario's category (keeps the category from
being pruned by the first close). -/
def itemD2 : Item := { name := "pot", price := 60 }

/-- Two-item category of the re-close scenario. -/
def categoryD : Category :=
  { name := "cookware", «type» := "kitchen", logo := "c.png", items := [itemD1, itemD2] }

/-- Fresh room of the re-close scenario. -/
def roomD0 : Room := createRoom "C3ROOM" 0 [categoryD]

/-- The re-close scenario's room after one player joined. -/
def roomD1 : Room := (joinRoom roomD0 "aaaabbbb" "Ann").1

/-- The re-close scenario's room after the game started. -/
def roomD2 : Room :=
  match startGame roomD1 with
  | .ok (r, _) => r
  | .error _ => roomD1

/-- The events broadcast by the re-close scenario's `startGame`. -/
def startEventsD : List ServerEvent :=
  match startGame roomD1 with
  | .ok (_, e) => e
  | .error _ => []

/-- The re-close scenario's room after the first item was picked. -/
def roomD3 : Room :=
  match pickItem roomD2 categoryD (some itemD1) 0 with
  | some (r, _) => r
  | none => roomD2

/-- The events broadcast by the re-close scenario's pick. -/
def pickEventsD : List ServerEvent :=
  match pickItem roomD2 categoryD (some itemD1) 0 with
  | some (_, e) => e
  | none => []

/-- The re-close scenario's room after one guess was submitted. -/
def roomD4 : Room := (submitGuess roomD3 "aaaabbbb" 25).1

/-- The re-close scenario's room after the round closed: state `results`,
current item and selected category still set. -/
def roomD5 : Room := (closeRound roomD4).room

/-- The room `closeRound` leaves behind when `roomD5` is closed again. -/
def roomD6 : Room := (closeRound roomD5).room

/-- The events of the first `closeRound` of the re-close scenario. -/
def closeEventsD : List ServerEvent :=
  match closeRound roomD4 with
  | .ok _ e => e
  | .thrown _ => []

/-- Category of the game-over re-entry scenario. -/
def categoryE : Category :=
  { name := "gadgets", «type» := "tech", logo := "g.png",
    items := [{ name := "drone", price := 120 }] }

/-- A reachable game-over room that still has a category left: the host
ended the game early (`action = "game-over"`). -/
def roomE : Room :=
  (endGame (joinRoom (createRoom "C4ROOM" 0 [categoryE]) "bbbbcccc" "Bo").1).1

/-- Item of the rogue-category scenario; its category is never part of the
room's category list. -/
def rogueItem : Item := { name := "ghost", price := 5 }

/-- A category passed to `pickItem` by the caller without being present in
`room.categories` (`pickItem` performs no membership check). -/
def rogueCategory : Category :=
  { name := "phantom", «type» := "t", logo := "p.png", items := [rogueItem] }

/-- Fresh room of the rogue-category scenario: no categories at all. -/
def roomF0 : Room := createRoom "C8ROOM" 0 []

/-- The rogue-category scenario's room after one player joined. -/
def roomF1 : Room := (joinRoom roomF0 "ccccdddd" "Cy").1

/-- The rogue-category scenario's room after the game started. -/
def roomF2 : Room :=
  match startGame roomF1 with
  | .ok (r, _) => r
  | .error _ => roomF1

/-- The events broadcast by the rogue-category scenario's `startGame`. -/
def startEventsF : List ServerEvent :=
  match startGame roomF1 with
  | .ok (_, e) => e
  | .error _ => []

/-- The rogue-category scenario's guessing room: `selectedCategory` is the
rogue category, whose name has no match in `room.categories`. -/
def roomF3 : Room :=
  match pickItem roomF2 rogueCategory (some rogueItem) 0 with
  | some (r, _) => r
  | none => roomF2

/-- The events broadcast by the rogue-category scenario's pick. -/
def pickEventsF : List ServerEvent :=
  match pickItem roomF2 rogueCategory (some rogueItem) 0 with
  | some (_, e) => e
  | none => []

/-- Items of the picker-rotation scenario (four, so that three closed rounds
leave the category nonempty). -/
def itemsP : List Item :=
  [ { name := "i1", price := 10 }, { name := "i2", price := 20 },
    { name := "i3", price := 30 }, { name := "i4", price := 40 } ]

/-- The category of the picker-rotation scenario. -/
def categoryP : Category :=
  { name := "R", «type» := "t", logo := "r.png", items := itemsP }

/-- A player of the picker-rotation scenario. -/
def playerP (n : String) : Player :=
  { id := n, name := n, score := 0, voted := false }

/-- Room of the picker-rotation scenario: players P1, P2, P3 in join order,
picker index 0, in the category-selection phase. -/
def roomP0 : Room :=
  { id := "P", createdAt := 0, state := .categorySelection, categories := [categoryP],
    selectedCategory := none, currentItem := none,
    players := [playerP "P1", playerP "P2", playerP "P3"],
    currentCategoryPickerIndex := some 0, playerIdToGuess := [] }

/-- First pick request of the rotation scenario (by P1 at index 0). -/
def pickReq1 : HandlerResult :=
  handlePick roomP0 "P1" categoryP (some (itemsP.getD 0 rogueItem)) 0

/-- Room before the second pick: round closed and advanced. -/
def roomP1 : Room := (handleNext (handleClose pickReq1.room).room).room

/-- Second pick request of the rotation scenario (by P2 at index 1). -/
def pickReq2 : HandlerResult :=
  handlePick roomP1 "P2" categoryP (some (itemsP.getD 1 rogueItem)) 0

/-- Room before the third pick. -/
def roomP2 : Room := (handleNext (handleClose pickReq2.room).room).room

/-- Third pick request of the rotation scenario (by P3 at index 2). -/
def pickReq3 : HandlerResult :=
  handlePick roomP2 "P3" categoryP (some (itemsP.getD 2 rogueItem)) 0

/-- Room before the fourth pick: the index has wrapped to 0. -/
def roomP3 : Room := (handleNext (handleClose pickReq3.room).room).room

/-- Fourth pick request of the rotation scenario (by P1 again, index 0). -/
def pickReq4 : HandlerResult :=
  handlePick roomP3 "P1" categoryP (some (itemsP.getD 3 rogueItem)) 0

/-- Item closed in the duplicate-name scenario. -/
def itemG : Item := { name := "twin", price := 50 }

/-- A second, distinct item carrying the same name as `itemG`. -/
def itemGdup : Item := { name := "twin", price := 70 }

/-- An item with a different name, surviving the duplicate removal. -/
def itemGother : Item := { name := "solo", price := 15 }

/-- Category of the duplicate-name scenario: two items named "twin" and one
named "solo". -/
def categoryG : Category :=
  { name := "twins", «type» := "t", logo := "t.png",
    items := [itemG, itemGother, itemGdup] }

/-- Guessing room of the duplicate-name scenario. -/
def roomG : Room :=
  { id := "G", createdAt := 0, state := .guessing, categories := [categoryG],
    selectedCategory := some categoryG, currentItem := some itemG,
    players := [playerP "Z1"], currentCategoryPickerIndex := some 0,
    playerIdToGuess := [("Z1", 55)] }

/-- The events of the first pick request of the rotation scenario. -/
def pickEvents1 : List ServerEvent :=
  match pickReq1 with
  | .ok _ e => e
  | _ => []

/-- The single player of the guess-recording scenario. -/
def playerW : Player := { id := "W", name := "Wu", score := 0, voted := false }

/-- Guessing room of the guess-recording scenario. -/
def roomW : Room :=
  { id := "RW", createdAt := 0, state := .guessing, categories := [],
    selectedCategory := some rogueCategory, currentItem := some rogueItem,
    players := [playerW], currentCategoryPickerIndex := some 0,
    playerIdToGuess := [] }

/-- Shape of a successful pick: the room moves to `guessing` with the
caller's category selected, some item current, and the guess map cleared. -/
lemma pickItem_ok {r : Room} {c : Category} {io : Option Item} {k : ℕ}
    {r' : Room} {evs : List ServerEvent}
    (hp : pickItem r c io k = some (r', evs)) :
    ∃ it : Item, r' = { r with
      selectedCategory := some c
      currentItem := some it
      state := .guessing
      playerIdToGuess := [] } := by
  unfold pickItem at hp
  rcases io with _ | it
  · dsimp only at hp
    by_cases he : c.items.isEmpty
    · simp [he] at hp
    · rcases hg : c.items[k % c.items.length]? with _ | it
      · simp [he, hg] at hp
      · simp only [he, Bool.false_eq_true, if_false, hg] at hp
        simp at hp
        exact ⟨it, hp.1.symm⟩
  · simp at hp
    exact ⟨it, hp.1.symm⟩

/-- Shape of a successful start: only from the lobby, into
`category-selection` with the picker index reset. -/
lemma startGame_ok {r r' : Room} {evs : List ServerEvent}
    (hs : startGame r = .ok (r', evs)) :
    r.state = .lobby ∧ r' = { r with
      state := .categorySelection
      currentCategoryPickerIndex := some 0
      selectedCategory := none
      currentItem := none } := by
  unfold startGame at hs
  split at hs
  · exact absurd hs (by simp)
  · rename_i hlobby
    rw [not_not] at hlobby
    split at hs
    · exact absurd hs (by simp)
    · simp at hs
      exact ⟨hlobby, hs.1.symm⟩

/-- Guard case: `closeRound` returns immediately when there is no current item. -/
lemma closeRound_noItem {r : Room} (h : r.currentItem = none) :
    closeRound r = .ok r [] := by
  unfold closeRound
  rw [h]

/-- Guard case: `closeRound` returns immediately when there is no selected category. -/
lemma closeRound_noCategory {r : Room} (h : r.selectedCategory = none) :
    closeRound r = .ok r [] := by
  unfold closeRound
  rcases hci : r.currentItem with _ | it
  · rfl
  · rw [h]

/-- Behaviour of `closeRound` when the selected category's name is found: the normal
return, broadcasting the result event and a state snapshot. -/
lemma closeRound_found {r : Room} {it : Item} {sc cat : Category}
    (hci : r.currentItem = some it) (hsc : r.selectedCategory = some sc)
    (hf : r.categories.find? (fun c => c.name == sc.name) = some cat) :
    closeRound r = .ok (closedRoomOf r it sc cat)
      [ .result it (roundWinners r.players r.playerIdToGuess it.price)
          (roundLosers r.players r.playerIdToGuess it.price)
          (sortedRoundDiffs r.players r.playerIdToGuess it.price),
        .state (roomToPublic (closedRoomOf r it sc cat)) ] := by
  unfold closeRound
  rw [hci, hsc]
  simp only [hf]
  simp [closedRoomOf, closedCategories, closedPlayers, hci, hsc]

/-- Behaviour of `closeRound` when the selected category's name is not found: the thrown
`TypeError`, with scores applied and `voted` reset but the guesses kept and
the state unchanged. -/
lemma closeRound_notFound {r : Room} {it : Item} {sc : Category}
    (hci : r.currentItem = some it) (hsc : r.selectedCategory = some sc)
    (hf : r.categories.find? (fun c => c.name == sc.name) = none) :
    closeRound r = .thrown
      { r with players := closedPlayers r.players r.playerIdToGuess it.price } := by
  unfold closeRound
  rw [hci, hsc]
  simp only [hf]
  simp [closedPlayers, hci, hsc]

/-- Operation `submitGuess` is a silent no-op when any precondition fails. -/
lemma submitGuess_noop {r : Room} {pid : String} {g : ℤ}
    (h : findPlayer r.players pid = none ∨ r.currentItem = none ∨ r.state ≠ .guessing) :
    submitGuess r pid g = (r, []) := by
  unfold submitGuess
  rcases hfp : findPlayer r.players pid with _ | p
  · rfl
  · rcases h with h | h
    · rw [hfp] at h; cases h
    · simp only [if_pos h]

/-- The room after a successful `submitGuess`. -/
lemma submitGuess_success {r : Room} {pid : String} {g : ℤ} {p : Player}
    (hfp : findPlayer r.players pid = some p)
    (hit : r.currentItem ≠ none) (hst : r.state = .guessing) :
    (submitGuess r pid g).1 = { r with
      playerIdToGuess := mapSet r.playerIdToGuess pid g
      players := r.players.map (fun q =>
        if q.id == pid then { q with lastGuess := some g, voted := true } else q) } := by
  unfold submitGuess
  rw [hfp]
  simp [hit, hst]

/-- Every reachable room satisfies the strengthened invariant. -/
lemma reach_fullInv {r : Room} (h : Reach r) : FullInv r := by
  induction h with
  | create id ts cats => simp [createRoom, FullInv, ClaimInv]
  | join h pid nm ih => simpa [joinRoom, FullInv, ClaimInv] using ih
  | start h hs ih =>
      obtain ⟨hlobby, rfl⟩ := startGame_ok hs
      refine ⟨⟨by simp, fun _ => ?_⟩, by simp⟩
      exact ih.1.2 (by simp [hlobby])
  | pick h c io k hp ih =>
      obtain ⟨it, rfl⟩ := pickItem_ok hp
      simp [FullInv, ClaimInv]
  | guess h pid g ih =>
      rename_i rr
      rcases hfp : findPlayer rr.players pid with _ | p
      · rw [submitGuess_noop (.inl hfp)]; exact ih
      · by_cases hc : rr.currentItem = none ∨ rr.state ≠ .guessing
        · rw [submitGuess_noop (.inr hc)]; exact ih
        · push_neg at hc
          rw [submitGuess_success hfp hc.1 hc.2]
          refine ⟨⟨by simpa using ih.1.1, fun hne => ?_⟩, by simpa using ih.2⟩
          exact absurd hc.2 (by simpa using hne)
  | close h ih =>
      rename_i rr
      rcases hci : rr.currentItem with _ | it
      · rw [closeRound_noItem hci]; exact ih
      · rcases hsc : rr.selectedCategory with _ | sc
        · rw [closeRound_noCategory hsc]; exact ih
        · rcases hf : rr.categories.find? (fun c => c.name == sc.name) with _ | cat
          · rw [closeRound_notFound hci hsc hf]
            refine ⟨⟨by simpa [CloseResult.room, hci] using ih.1.1, fun hne => ?_⟩,
              by simp [CloseResult.room, hci, hsc]⟩
            exact ih.1.2 (by simpa [CloseResult.room] using hne)
          · rw [closeRound_found hci hsc hf]
            exact ⟨⟨by simp [CloseResult.room, closedRoomOf, hci], fun _ => rfl⟩,
              by simp [CloseResult.room, closedRoomOf, hci, hsc]⟩
  | next h ih =>
      rename_i rr
      unfold nextStep
      split
      · simp [endGame, FullInv, ClaimInv]
      · simp [FullInv, ClaimInv]
  | finish h ih => simp [endGame, FullInv, ClaimInv]

/-- The re-close scenario's guessing room is reachable. -/
lemma reach_roomD3 : Reach roomD3 :=
  Reach.pick
    (Reach.start (Reach.join (Reach.create "C3ROOM" 0 [categoryD]) "aaaabbbb" "Ann")
      (rfl : startGame roomD1 = .ok (roomD2, startEventsD)))
    categoryD (some itemD1) 0
    (rfl : pickItem roomD2 categoryD (some itemD1) 0 = some (roomD3, pickEventsD))

/-- The re-close scenario's room with a submitted guess is reachable. -/
lemma reach_roomD4 : Reach roomD4 := Reach.guess reach_roomD3 "aaaabbbb" 25

/-- The re-close scenario's results room is reachable. -/
lemma reach_roomD5 : Reach roomD5 := Reach.close reach_roomD4

/-- The game-over room that still has a category is reachable. -/
lemma reach_roomE : Reach roomE :=
  Reach.finish (Reach.join (Reach.create "C4ROOM" 0 [categoryE]) "bbbbcccc" "Bo")

/-- The rogue-category guessing room is reachable. -/
lemma reach_roomF3 : Reach roomF3 :=
  Reach.pick
    (Reach.start (Reach.join (Reach.create "C8ROOM" 0 []) "ccccdddd" "Cy")
      (rfl : startGame roomF1 = .ok (roomF2, startEventsF)))
    rogueCategory (some rogueItem) 0
    (rfl : pickItem roomF2 rogueCategory (some rogueItem) 0 = some (roomF3, pickEventsF))

/-- C1: in a guessing room with target price 90, players A, B, C in join
order, guesses A = 100 and B = 80 and none from C, `closeRound` computes
diffs A = 10, B = 10, C = +inf, crowns A and B as winners and C as the only
loser, and moves A's and B's scores up by one and C's down by one. -/
theorem closeRound_scoring_example :
    roomC1.state = GameState.guessing
    ∧ (roomC1.currentItem.map Item.price) = some 90
    ∧ sortedRoundDiffs roomC1.players roomC1.playerIdToGuess 90 =
        [ { playerId := "A", name := "Alice", diff := .fin 10, guess := some 100 },
          { playerId := "B", name := "Bob", diff := .fin 10, guess := some 80 },
          { playerId := "C", name := "Cara", diff := .posInf } ]
    ∧ roundWinners roomC1.players roomC1.playerIdToGuess 90 = ["A", "B"]
    ∧ roundLosers roomC1.players roomC1.playerIdToGuess 90 = ["C"]
    ∧ (closeRound roomC1).isThrown = false
    ∧ (closeRound roomC1).room.players.map (fun p => (p.id, p.score)) =
        [("A", 4), ("B", 1), ("C", 4)] := by
  decide

/-- C2: every room reachable from `createRoom` by the core operations has a
current item exactly in the `guessing` and `results` states, and an empty
guess map outside `guessing`. -/
theorem reachable_rooms_satisfy_invariant (r : Room) (h : Reach r) : ClaimInv r :=
  (reach_fullInv h).1

/-- Witness for C2: the invariant instantiated at a freshly created room. -/
theorem reachable_rooms_satisfy_invariant_witness :
    ClaimInv (createRoom "W2" 0 []) :=
  reachable_rooms_satisfy_invariant _ (Reach.create "W2" 0 [])

/-- Counterexample to C3: a reachable room in state `results` (not
`guessing`) whose players are re-scored by `closeRound` — the guard checks
only `currentItem`/`selectedCategory`, which a results room still has. -/
theorem closeRound_nonGuessing_counterexample :
    Reach roomD5
    ∧ roomD5.state ≠ GameState.guessing
    ∧ (closeRound roomD5).room ≠ roomD5
    ∧ roomD5.players.map Player.score = [1]
    ∧ (closeRound roomD5).room.players.map Player.score = [2] :=
  ⟨reach_roomD5, by decide, by decide, by decide, by decide⟩

/-- C3 amended: `closeRound` leaves the room unchanged and broadcasts
nothing on every reachable room whose state is neither `guessing` nor
`results`; a reachable `results` room still has its item and category set
and is re-scored instead of rejected. -/
theorem closeRound_rejected_amended (r : Room) (h : Reach r)
    (h1 : r.state ≠ GameState.guessing) (h2 : r.state ≠ GameState.results) :
    closeRound r = .ok r [] := by
  have hinv := reach_fullInv h
  refine closeRound_noItem ?_
  by_contra hne
  rcases hinv.1.1.mp hne with hg | hr
  · exact h1 hg
  · exact h2 hr

/-- Witness for the amended C3: a fresh lobby room is left unchanged. -/
theorem closeRound_rejected_amended_witness :
    closeRound (createRoom "W3" 0 []) = .ok (createRoom "W3" 0 []) [] :=
  closeRound_rejected_amended _ (Reach.create "W3" 0 []) (by decide) (by decide)

/-- Counterexample to C4: a reachable game-over room with a category left is
moved back to `category-selection` by `nextStep`. -/
theorem gameOver_reentry_counterexample :
    Reach roomE
    ∧ roomE.state = GameState.gameOver
    ∧ roomE.categories ≠ []
    ∧ (nextStep roomE).1.state = GameState.categorySelection :=
  ⟨reach_roomE, by decide, by decide, by decide⟩

/-- C4 amended: `nextStep` keeps a game-over room in `game-over` exactly
when no categories remain; with categories left it re-enters
`category-selection` (the source does not guard re-entry). -/
theorem gameOver_terminal_amended (r : Room) (hgo : r.state = GameState.gameOver) :
    (r.categories = [] → (nextStep r).1.state = GameState.gameOver)
    ∧ (r.categories ≠ [] → (nextStep r).1.state = GameState.categorySelection) := by
  constructor
  · intro hc
    unfold nextStep
    simp [hc, endGame]
  · intro hc
    unfold nextStep
    simp [hc]

/-- Witness for the amended C4: both branches at concrete game-over rooms. -/
theorem gameOver_terminal_amended_witness :
    (nextStep (endGame (createRoom "W4" 0 []) ).1).1.state = GameState.gameOver :=
  (gameOver_terminal_amended _ (by decide)).1 (by decide)

/-- With an empty guess map every diff entry is infinite. -/
lemma roundDiffs_empty (ps : List Player) (price : ℤ) :
    roundDiffs ps [] price =
      ps.map (fun p => { playerId := p.id, name := p.name, diff := .posInf }) := rfl

/-- Sorting a list of all-infinite diffs keeps it unchanged (all entries
compare equal, and the sort is stable). -/
lemma sortDiffs_all_posInf (l : List DiffEntry) (h : ∀ d ∈ l, d.diff = JNum.posInf) :
    sortDiffs l = l := by
  induction l with
  | nil => rfl
  | cons x xs ih =>
      have hx : x.diff = JNum.posInf := h x (by simp)
      have hxs : ∀ d ∈ xs, d.diff = JNum.posInf := fun d hd => h d (by simp [hd])
      rw [sortDiffs, ih hxs]
      cases xs with
      | nil => rfl
      | cons y ys =>
          have hy : y.diff = JNum.posInf := hxs y (by simp)
          rw [insertDiff, hx, hy]
          rfl

/-- Folding `Math.min` over all-infinite values stays infinite. -/
lemma foldl_jmin_posInf (l : List JNum) (h : ∀ x ∈ l, x = JNum.posInf) :
    l.foldl jmin JNum.posInf = JNum.posInf := by
  induction l with
  | nil => rfl
  | cons x xs ih =>
      have hx : x = JNum.posInf := h x (by simp)
      have hxs : ∀ y ∈ xs, y = JNum.posInf := fun y hy => h y (by simp [hy])
      rw [List.foldl_cons, hx]
      exact ih hxs

/-- Folding `Math.max` from any accumulator over all-infinite values of a
nonempty list yields infinity. -/
lemma foldl_jmax_posInf (l : List JNum) (h : ∀ x ∈ l, x = JNum.posInf)
    (acc : JNum) (hacc : acc = JNum.negInf ∨ acc = JNum.posInf) (hne : l ≠ []) :
    l.foldl jmax acc = JNum.posInf := by
  induction l generalizing acc with
  | nil => exact absurd rfl hne
  | cons x xs ih =>
      have hx : x = JNum.posInf := h x (by simp)
      have hxs : ∀ y ∈ xs, y = JNum.posInf := fun y hy => h y (by simp [hy])
      rw [List.foldl_cons, hx]
      have hstep : jmax acc JNum.posInf = JNum.posInf := by
        rcases hacc with rfl | rfl <;> rfl
      rw [hstep]
      cases xs with
      | nil => rfl
      | cons y ys => exact ih hxs JNum.posInf (Or.inr rfl) (by simp)

/-- The `forEach` score bumping adds `delta` once per occurrence of the player's
id in the id list. -/
lemma applyScore_count (delta : ℤ) (ids : List String) (ps : List Player) :
    applyScore delta ps ids =
      ps.map (fun p => { p with score := p.score + delta * (ids.count p.id : ℤ) }) := by
  induction ids generalizing ps with
  | nil => simp [applyScore]
  | cons a l ih =>
      rw [applyScore, List.foldl_cons]
      rw [show (List.foldl _ _ l : List Player) = applyScore delta
        (ps.map (fun q => if q.id == a then { q with score := q.score + delta } else q)) l from rfl]
      rw [ih, List.map_map]
      refine List.map_congr_left ?_
      intro p _
      by_cases hp : p.id = a
      · simp [Function.comp, hp, List.count_cons]
        ring
      · simp [Function.comp, hp, List.count_cons, Ne.symm hp]


/-- With an empty guess map the sorted diff list is the per-player infinite
diff list in join order. -/
lemma sortedRoundDiffs_empty (ps : List Player) (price : ℤ) :
    sortedRoundDiffs ps [] price =
      ps.map (fun p => { playerId := p.id, name := p.name, diff := .posInf }) := by
  rw [sortedRoundDiffs, roundDiffs_empty]
  exact sortDiffs_all_posInf _ (by simp)

/-- With an empty guess map, `minDiff` is infinite. -/
lemma roundMinDiff_empty (ps : List Player) (price : ℤ) :
    roundMinDiff ps [] price = JNum.posInf := by
  rw [roundMinDiff, sortedRoundDiffs_empty, jsMin]
  exact foldl_jmin_posInf _ (by simp)

/-- With an empty guess map and at least one player, `maxDiff` is infinite. -/
lemma roundMaxDiff_empty (ps : List Player) (price : ℤ) (hne : ps ≠ []) :
    roundMaxDiff ps [] price = JNum.posInf := by
  rw [roundMaxDiff, sortedRoundDiffs_empty, jsMax]
  refine foldl_jmax_posInf _ (by simp) _ (Or.inl rfl) ?_
  simp [hne]

/-- With an empty guess map, every player wins. -/
lemma roundWinners_empty (ps : List Player) (price : ℤ) :
    roundWinners ps [] price = ps.map Player.id := by
  rw [roundWinners, roundMinDiff_empty, sortedRoundDiffs_empty]
  rw [List.filter_eq_self.mpr (by simp)]
  simp

/-- With an empty guess map and at least one player, there are no losers. -/
lemma roundLosers_empty (ps : List Player) (price : ℤ) (hne : ps ≠ []) :
    roundLosers ps [] price = [] := by
  rw [roundLosers, if_pos]
  rw [roundMinDiff_empty, roundMaxDiff_empty ps price hne]

/-- Pointwise score growth lifts to `Forall₂` over a map. -/
lemma forall₂_score_le_map (ps : List Player) (f : Player → Player)
    (hf : ∀ p, p.score ≤ (f p).score) :
    List.Forall₂ (fun p q => p.score ≤ q.score) ps (ps.map f) := by
  induction ps with
  | nil => exact List.Forall₂.nil
  | cons p ps ih => exact List.Forall₂.cons (hf p) ih


/-- Whether `closeRound` returns or throws, the players it leaves behind are
the score-updated, `voted`-cleared players. -/
lemma closeRound_room_players {r : Room} {it : Item} {sc : Category}
    (hci : r.currentItem = some it) (hsc : r.selectedCategory = some sc) :
    (closeRound r).room.players = closedPlayers r.players r.playerIdToGuess it.price := by
  rcases hf : r.categories.find? (fun c => c.name == sc.name) with _ | cat
  · rw [closeRound_notFound hci hsc hf]; rfl
  · rw [closeRound_found hci hsc hf]; rfl

/-- C6: when `closeRound` runs with at least one player and an empty guess
map, every diff is infinite, `minDiff` equals `maxDiff`, the winners list is
the full player set — each gaining one point — and the losers list is empty;
in general, whenever `minDiff = maxDiff` no player's score is decremented. -/
theorem closeRound_all_absent (r : Room) (it : Item) (sc : Category)
    (hci : r.currentItem = some it) (hsc : r.selectedCategory = some sc)
    (hgs : r.playerIdToGuess = []) (hne : r.players ≠ [])
    (hnd : (r.players.map Player.id).Nodup) :
    (∀ d ∈ sortedRoundDiffs r.players r.playerIdToGuess it.price, d.diff = JNum.posInf)
    ∧ roundMinDiff r.players r.playerIdToGuess it.price
        = roundMaxDiff r.players r.playerIdToGuess it.price
    ∧ roundWinners r.players r.playerIdToGuess it.price = r.players.map Player.id
    ∧ roundLosers r.players r.playerIdToGuess it.price = []
    ∧ (closeRound r).room.players
        = r.players.map (fun p => { p with score := p.score + 1, voted := false })
    ∧ (∀ r2 : Room,
        (∀ it2 : Item, r2.currentItem = some it2 →
          roundMinDiff r2.players r2.playerIdToGuess it2.price
            = roundMaxDiff r2.players r2.playerIdToGuess it2.price) →
        List.Forall₂ (fun p q => p.score ≤ q.score) r2.players (closeRound r2).room.players) := by
  rw [hgs]
  refine ⟨?_, ?_, roundWinners_empty _ _, roundLosers_empty _ _ hne, ?_, ?_⟩
  · rw [sortedRoundDiffs_empty]
    simp
  · rw [roundMinDiff_empty, roundMaxDiff_empty _ _ hne]
  · have hplayers := closeRound_room_players hci hsc
    rw [hgs] at hplayers
    rw [hplayers, closedPlayers, roundLosers_empty _ _ hne, roundWinners_empty]
    rw [show applyScore (-1) (applyScore 1 r.players (r.players.map Player.id)) [] =
      applyScore 1 r.players (r.players.map Player.id) from rfl]
    rw [applyScore_count, List.map_map]
    refine List.map_congr_left ?_
    intro p hp
    have hcount : (r.players.map Player.id).count p.id = 1 :=
      List.count_eq_one_of_mem hnd (List.mem_map_of_mem Player.id hp)
    simp [Function.comp, hcount]
  · intro r2 hmm
    rcases hci2 : r2.currentItem with _ | it2
    · rw [closeRound_noItem hci2]
      exact List.forall₂_same.mpr (fun x _ => le_refl _)
    · rcases hsc2 : r2.selectedCategory with _ | sc2
      · rw [closeRound_noCategory hsc2]
        exact List.forall₂_same.mpr (fun x _ => le_refl _)
      · have hminmax := hmm it2 hci2
        have hlose : roundLosers r2.players r2.playerIdToGuess it2.price = [] := by
          rw [roundLosers, if_pos hminmax]
        rw [closeRound_room_players hci2 hsc2, closedPlayers, hlose]
        rw [show applyScore (-1)
            (applyScore 1 r2.players (roundWinners r2.players r2.playerIdToGuess it2.price)) [] =
          applyScore 1 r2.players (roundWinners r2.players r2.playerIdToGuess it2.price) from rfl]
        rw [applyScore_count, List.map_map]
        refine forall₂_score_le_map _ _ ?_
        intro p
        simp only [Function.comp]
        have : (0 : ℤ) ≤ ((roundWinners r2.players r2.playerIdToGuess it2.price).count p.id : ℤ) :=
          Int.natCast_nonneg _
        omega


/-- C5: whenever `closeRound` returns normally on a (reachable) guessing
room with a current item, the guess map of the returned room is empty and
every player's `voted` flag is false. -/
theorem closeRound_round_isolation (r r' : Room) (evs : List ServerEvent) (it : Item)
    (hre : Reach r) (hst : r.state = GameState.guessing) (hci : r.currentItem = some it)
    (hok : closeRound r = .ok r' evs) :
    r'.playerIdToGuess = [] ∧ ∀ p ∈ r'.players, p.voted = false := by
  have hinv := reach_fullInv hre
  rcases hsc : r.selectedCategory with _ | sc
  · have hnone : r.currentItem = none := hinv.2.mpr hsc
    rw [hci] at hnone
    cases hnone
  · rcases hf : r.categories.find? (fun c => c.name == sc.name) with _ | cat
    · rw [closeRound_notFound hci hsc hf] at hok
      cases hok
    · rw [closeRound_found hci hsc hf] at hok
      injection hok with h1 h2
      constructor
      · rw [← h1]
        rfl
      · intro p hp
        rw [← h1] at hp
        simp only [closedRoomOf, closedPlayers] at hp
        rw [List.mem_map] at hp
        obtain ⟨q, hq, hpq⟩ := hp
        rw [← hpq]

/-- A `Map.set` followed by `Map.get` of the same key returns the new value. -/
lemma mapGet_mapSet_self (m : List (String × ℤ)) (k : String) (v : ℤ) :
    mapGet (mapSet m k v) k = some v := by
  by_cases hmem : m.any (fun e => e.1 == k) = true
  · rw [mapSet, if_pos hmem, mapGet]
    induction m with
    | nil => simp at hmem
    | cons e es ih =>
        by_cases he : (e.1 == k) = true
        · simp only [List.map_cons, if_pos he]
          rw [List.find?_cons_of_pos (p := fun e => e.1 == k) (a := (k, v)) _ (by simp)]
          rfl
        · simp only [List.map_cons, if_neg he]
          rw [List.find?_cons_of_neg (p := fun e => e.1 == k) (a := e) _ he]
          apply ih
          rcases (List.any_eq_true.mp hmem) with ⟨x, hx, hpx⟩
          rcases List.mem_cons.mp hx with rfl | hx2
          · exact absurd hpx (by simpa using he)
          · exact List.any_eq_true.mpr ⟨x, hx2, hpx⟩
  · rw [mapSet, if_neg hmem, mapGet]
    induction m with
    | nil =>
        rw [List.nil_append,
          List.find?_cons_of_pos (p := fun e => e.1 == k) (a := ((k, v) : String × ℤ)) _ (by simp)]
        rfl
    | cons e es ih =>
        have he : ¬(e.1 == k) = true := by
          intro hc
          exact hmem (List.any_eq_true.mpr ⟨e, by simp, hc⟩)
        rw [List.cons_append, List.find?_cons_of_neg (p := fun e => e.1 == k) (a := e) _ he]
        apply ih
        intro hc
        rcases (List.any_eq_true.mp hc) with ⟨x, hx, hpx⟩
        exact hmem (List.any_eq_true.mpr ⟨x, by simp [hx], hpx⟩)

/-- Updating the found player's record in place preserves `Map.get`. -/
lemma findPlayer_update (ps : List Player) (pid : String) (p : Player)
    (upd : Player → Player) (hid : ∀ q, (upd q).id = q.id)
    (hfp : findPlayer ps pid = some p) :
    findPlayer (ps.map (fun q => if q.id == pid then upd q else q)) pid
      = some (upd p) := by
  induction ps with
  | nil => cases hfp
  | cons q qs ih =>
      by_cases hq : (q.id == pid) = true
      · rw [findPlayer,
          List.find?_cons_of_pos (p := fun x => x.id == pid) (a := q) _ hq] at hfp
        injection hfp with hqp
        subst hqp
        rw [findPlayer]
        simp only [List.map_cons, if_pos hq]
        rw [List.find?_cons_of_pos (p := fun x => x.id == pid) (a := upd q) _
          (show ((upd q).id == pid) = true by rw [hid q]; exact hq)]
      · rw [findPlayer,
          List.find?_cons_of_neg (p := fun x => x.id == pid) (a := q) _ hq] at hfp
        rw [findPlayer]
        simp only [List.map_cons, if_neg hq]
        rw [List.find?_cons_of_neg (p := fun x => x.id == pid) (a := q) _ hq]
        exact ih hfp

/-- C7: `submitGuess` never throws: with an unknown player, no current item
or a state other than `guessing` it returns the room unchanged and
broadcasts nothing; otherwise it records the guess under the player's id
with last-write-wins semantics, marks the player `voted` and stores
`lastGuess`. -/
theorem submitGuess_spec (r : Room) (pid : String) (g : ℤ) :
    ((findPlayer r.players pid = none ∨ r.currentItem = none ∨ r.state ≠ GameState.guessing) →
      submitGuess r pid g = (r, []))
    ∧ (∀ p : Player, findPlayer r.players pid = some p → r.currentItem ≠ none →
        r.state = GameState.guessing →
          mapGet (submitGuess r pid g).1.playerIdToGuess pid = some g
          ∧ (∀ q ∈ (submitGuess r pid g).1.players, q.id = pid →
              q.voted = true ∧ q.lastGuess = some g)
          ∧ (∀ g2 : ℤ,
              mapGet (submitGuess (submitGuess r pid g).1 pid g2).1.playerIdToGuess pid
                = some g2)) := by
  refine ⟨submitGuess_noop, ?_⟩
  intro p hfp hit hst
  have hsucc := submitGuess_success (g := g) hfp hit hst
  refine ⟨?_, ?_, ?_⟩
  · rw [hsucc]
    exact mapGet_mapSet_self _ _ _
  · rw [hsucc]
    intro q hq hqid
    simp only [List.mem_map] at hq
    obtain ⟨q0, hq0, hqe⟩ := hq
    by_cases h0 : (q0.id == pid) = true
    · rw [if_pos h0] at hqe
      rw [← hqe]
      exact ⟨rfl, rfl⟩
    · rw [if_neg h0] at hqe
      rw [← hqe] at hqid
      exact absurd hqid (by simpa using h0)
  · intro g2
    have hfp2 : findPlayer (submitGuess r pid g).1.players pid
        = some { p with lastGuess := some g, voted := true } := by
      rw [hsucc]
      exact findPlayer_update _ _ _ _ (fun q => rfl) hfp
    have hit2 : (submitGuess r pid g).1.currentItem ≠ none := by
      rw [hsucc]; exact hit
    have hst2 : (submitGuess r pid g).1.state = GameState.guessing := by
      rw [hsucc]; exact hst
    have hsucc2 := submitGuess_success (g := g2) hfp2 hit2 hst2
    rw [hsucc2]
    exact mapGet_mapSet_self _ _ _


/-- Witness for C5: the concrete reachable round-close leaves an empty guess
map and a cleared `voted` flag. -/
theorem closeRound_round_isolation_witness :
    roomD5.playerIdToGuess = [] ∧ roomD5.players.map Player.voted = [false] :=
  ⟨(closeRound_round_isolation roomD4 roomD5 closeEventsD itemD1
      reach_roomD4 rfl rfl rfl).1,
    by decide⟩

/-- Witness for C6: with one player and no guesses, the full player set wins
and gains a point. -/
theorem closeRound_all_absent_witness :
    roundWinners roomD3.players roomD3.playerIdToGuess itemD1.price
      = roomD3.players.map Player.id
    ∧ (closeRound roomD3).room.players.map (fun p => (p.id, p.score))
      = [("aaaabbbb", 1)] :=
  ⟨(closeRound_all_absent roomD3 itemD1 categoryD rfl rfl rfl (by decide)
      (by decide)).2.2.1,
    by decide⟩

/-- Witness for C7: a recorded guess on a concrete room, and the no-op on
the same room moved to `results`. -/
theorem submitGuess_spec_witness :
    mapGet (submitGuess roomW "W" 42).1.playerIdToGuess "W" = some 42
    ∧ submitGuess { roomW with state := GameState.results } "W" 42
        = ({ roomW with state := GameState.results }, []) :=
  ⟨((submitGuess_spec roomW "W" 42).2 playerW rfl (by decide) rfl).1,
    (submitGuess_spec { roomW with state := GameState.results } "W" 42).1
      (Or.inr (Or.inr (by decide)))⟩

/-- Counterexample to C8: a reachable guessing room — picked with a
caller-supplied category absent from `room.categories` — on which
`closeRound` throws a `TypeError`. -/
theorem closeRound_throws_counterexample :
    Reach roomF3
    ∧ roomF3.state = GameState.guessing
    ∧ (closeRound roomF3).isThrown = true :=
  ⟨reach_roomF3, by decide, by decide⟩

/-- C8 amended: `closeRound` terminates without throwing on every room whose
selected category's name (when one is selected) has a matching entry in
`room.categories`; when the round was picked with a category absent from the
room — `pickItem` performs no membership check — `closeRound` throws. -/
theorem closeRound_noThrow_amended (r : Room)
    (h : ∀ sc : Category, r.selectedCategory = some sc →
      r.categories.any (fun c => c.name == sc.name) = true) :
    (closeRound r).isThrown = false := by
  rcases hci : r.currentItem with _ | it
  · rw [closeRound_noItem hci]; rfl
  · rcases hsc : r.selectedCategory with _ | sc
    · rw [closeRound_noCategory hsc]; rfl
    · rcases hf : r.categories.find? (fun c => c.name == sc.name) with _ | cat
      · exfalso
        rcases List.any_eq_true.mp (h sc hsc) with ⟨c, hc, hpc⟩
        exact (List.find?_eq_none.mp hf c hc) hpc
      · rw [closeRound_found hci hsc hf]; rfl

/-- Witness for the amended C8: the concrete round whose selected category
is present closes without throwing. -/
theorem closeRound_noThrow_amended_witness :
    (closeRound roomD4).isThrown = false :=
  closeRound_noThrow_amended roomD4 (fun sc hsc => by
    have he : roomD4.selectedCategory = some categoryD := by decide
    rw [he] at hsc
    injection hsc with h2
    subst h2
    decide)

/-- C9: the request handler advances the picker index to
`(index + 1) % playerCount` only on a successful pick — every rejected pick
request leaves the room (hence the index) unchanged — and with players
P1, P2, P3 and picker index 0, three successful picks are made by the
players at indices 0, 1, 2 and a fourth, again by P1, finds index 0. -/
theorem pick_rotation_spec :
    (∀ (r : Room) (pid : String) (c : Category) (io : Option Item) (k : ℕ)
        (r' : Room) (msg : String),
        handlePick r pid c io k = .clientError r' msg → r' = r)
    ∧ (∀ (r : Room) (pid : String) (c : Category) (io : Option Item) (k : ℕ)
        (r' : Room) (evs : List ServerEvent),
        handlePick r pid c io k = .ok r' evs →
        r'.currentCategoryPickerIndex =
          some ((r.currentCategoryPickerIndex.getD 0 + 1) % r.players.length))
    ∧ roomP0.currentCategoryPickerIndex = some 0
    ∧ pickReq1.isOk = true
    ∧ roomP1.currentCategoryPickerIndex = some 1
    ∧ pickReq2.isOk = true
    ∧ roomP2.currentCategoryPickerIndex = some 2
    ∧ pickReq3.isOk = true
    ∧ roomP3.currentCategoryPickerIndex = some 0
    ∧ pickReq4.isOk = true
    ∧ pickReq4.room.currentCategoryPickerIndex = some 1 := by
  refine ⟨?_, ?_, by decide, by decide, by decide, by decide, by decide,
    by decide, by decide, by decide, by decide⟩
  · intro r pid c io k r' msg h
    unfold handlePick at h
    by_cases hst : r.state ≠ GameState.categorySelection
    · rw [if_pos hst] at h
      injection h with h1 _
      exact h1.symm
    · rw [if_neg hst] at h
      rcases hq : r.players[r.currentCategoryPickerIndex.getD 0]? with _ | picker
      · rw [hq] at h; cases h
      · rw [hq] at h
        dsimp only at h
        by_cases hpid : pid ≠ picker.id
        · rw [if_pos hpid] at h
          injection h with h1 _
          exact h1.symm
        · rw [if_neg hpid] at h
          rcases hp : pickItem r c io k with _ | pr
          · rw [hp] at h
            injection h with h1 _
            exact h1.symm
          · rcases pr with ⟨r1, evs1⟩
            rw [hp] at h
            cases h
  · intro r pid c io k r' evs h
    unfold handlePick at h
    by_cases hst : r.state ≠ GameState.categorySelection
    · rw [if_pos hst] at h; cases h
    · rw [if_neg hst] at h
      rcases hq : r.players[r.currentCategoryPickerIndex.getD 0]? with _ | picker
      · rw [hq] at h; cases h
      · rw [hq] at h
        dsimp only at h
        by_cases hpid : pid ≠ picker.id
        · rw [if_pos hpid] at h; cases h
        · rw [if_neg hpid] at h
          rcases hp : pickItem r c io k with _ | pr
          · rw [hp] at h; cases h
          · rcases pr with ⟨r1, evs1⟩
            rw [hp] at h
            injection h with h1 _
            obtain ⟨it, rfl⟩ := pickItem_ok hp
            rw [← h1]

/-- Witness for C9: the successful first pick advanced the index by the
round-robin formula. -/
theorem pick_rotation_spec_witness :
    pickReq1.room.currentCategoryPickerIndex =
      some ((roomP0.currentCategoryPickerIndex.getD 0 + 1) % roomP0.players.length) :=
  pick_rotation_spec.2.1 roomP0 "P1" categoryP (some (itemsP.getD 0 rogueItem)) 0
    pickReq1.room pickEvents1 rfl

/-- C10: `closeRound` locates the round's category in `room.categories` by
name equality with `selectedCategory`, removes from it every item whose name
equals the closed item's name (keeping exactly the differently-named items),
and prunes the category precisely when its item list becomes empty. -/
theorem closeRound_removes_by_name (r : Room) (it : Item) (sc cat : Category)
    (hci : r.currentItem = some it) (hsc : r.selectedCategory = some sc)
    (hf : r.categories.find? (fun c => c.name == sc.name) = some cat) :
    (closeRound r).isThrown = false
    ∧ (closeRound r).room.categories =
        (if (cat.items.filter (fun i => !(i.name == it.name))).isEmpty then
           removeFirst (fun c => c.name == sc.name) r.categories
         else
           replaceFirst (fun c => c.name == sc.name)
             (fun c => { c with items := cat.items.filter (fun i => !(i.name == it.name)) })
             r.categories)
    ∧ (∀ i ∈ cat.items.filter (fun i => !(i.name == it.name)), ¬i.name = it.name)
    ∧ (∀ i ∈ cat.items, ¬i.name = it.name →
        i ∈ cat.items.filter (fun i => !(i.name == it.name))) := by
  rw [closeRound_found hci hsc hf]
  refine ⟨rfl, rfl, ?_, ?_⟩
  · intro i hi
    have hmem := (List.mem_filter.mp hi).2
    simpa using hmem
  · intro i hi hne
    exact List.mem_filter.mpr ⟨hi, by simpa using hne⟩

/-- Witness for C10: closing an item named "twin" removes both same-named
items of the category in one round and keeps the differently-named one. -/
theorem closeRound_removes_by_name_witness :
    (closeRound roomG).isThrown = false
    ∧ (closeRound roomG).room.categories =
        [{ name := "twins", «type» := "t", logo := "t.png", items := [itemGother] }] :=
  ⟨(closeRound_removes_by_name roomG itemG categoryG categoryG rfl rfl
      (by decide)).1,
    by decide⟩

end Spielenium
